import Mathlib

/-!
Verification of the geozip/postcode Go package (file postcode.go) against its
natural-language specification.  The Go pipeline is

  FetchCountry = normalizeCountryCode ; download ; unzipFile ; parseCSV

and is shallowly embedded below.  Library primitives that the package treats
as trusted collaborators (net/http transport, archive/zip container parsing,
encoding/csv) are modelled at the granularity the package observes them:

* the HTTP client is an explicit `transport` function from requests to either
  a transport error or a response (Go: `HTTPClient.Do`);
* a response body is modelled at the level of what `zip.NewReader` would
  yield from its bytes: either a malformed container or a list of named
  members, each of which either opens to decompressed content or fails;
* `encoding/csv` with `Comma = '\t'` is modelled for inputs free of quote
  and carriage-return characters (every theorem below that quantifies over
  text restricts to that domain): lines are separated by a newline, blank
  lines are skipped, fields are separated by tabs, and with the default
  `FieldsPerRecord = 0` every record must have the same number of fields as
  the first record, otherwise `ReadAll` fails with `ErrFieldCount`.

Machine strings are Lean `String`s (in this toolchain a wrapper around
`List Char`); Go's `len` on a string counts bytes, embedded as
`String.utf8ByteSize`.  Go panics (out-of-range array writes) are made
explicit by the `PanicOr` outcome type.
-/

namespace Geozip

/-- Outcome of running a piece of Go code that may panic at runtime:
either a runtime panic, or a normal return of a value. -/
inductive PanicOr (α : Type) where
  | panics : PanicOr α
  | returns : α → PanicOr α
deriving DecidableEq, Repr

/-- Decidable equality for `Except`, so that concrete runs of the fallible
stages can be checked by evaluation. -/
instance {ε α : Type} [DecidableEq ε] [DecidableEq α] : DecidableEq (Except ε α) := fun
  | .error e, .error f =>
    if h : e = f then .isTrue (congrArg Except.error h)
    else .isFalse (fun hc => h (Except.error.inj hc))
  | .error _, .ok _ => .isFalse (fun hc => Except.noConfusion hc)
  | .ok _, .error _ => .isFalse (fun hc => Except.noConfusion hc)
  | .ok a, .ok b =>
    if h : a = b then .isTrue (congrArg Except.ok h)
    else .isFalse (fun hc => h (Except.ok.inj hc))

/-- Error produced by the csv reader model.  On quote-free, carriage-return
free input the only error Go's `encoding/csv` can produce is
`ErrFieldCount` (a record with a number of fields different from the first
record's). -/
inductive CsvErr where
  | fieldCount : CsvErr
deriving DecidableEq, Repr

/-- Errors of the pipeline, one constructor per error construction site in
postcode.go, carrying exactly the dynamic data interpolated into the
corresponding `fmt.Errorf` format string. -/
inductive FetchError where
  /-- normalizeCountryCode: "country code %q has %d bytes, want %d"; carries
  the original (non-uppercased) input and its byte length. -/
  | invalidCountryCode (original : String) (byteLen : Nat)
  /-- download: `HTTPClient.Do` returned an error. -/
  | transport (cause : String)
  /-- download: "status = %s, want 200", carrying the observed status line. -/
  | unexpectedStatus (status : String)
  /-- download: "read response body: %w". -/
  | readBody (cause : String)
  /-- unzipFile: "create unzipping reader: %w". -/
  | malformedArchive (cause : String)
  /-- unzipFile: "zipfile missing %s", carrying the missing member name. -/
  | memberNotFound (filename : String)
  /-- unzipFile: "open zipped %s: %w". -/
  | openMember (filename : String) (cause : String)
  /-- unzipFile: reading the opened member failed (error returned unwrapped). -/
  | readMember (cause : String)
  /-- parseCSV: error from `csv.Reader.ReadAll`. -/
  | csv (e : CsvErr)
deriving DecidableEq, Repr

/-- What opening a zip member yields, at the granularity the package
observes: `file.Open` may fail, reading the opened stream may fail, or the
full decompressed content is obtained.  `Close` errors are not modelled
(a successfully opened in-memory member closes without error). -/
inductive ZipMemberData where
  | openFail (cause : String)
  | readFail (cause : String)
  | content (text : String)
deriving DecidableEq, Repr

/-- A member of a zip archive as observed through `archive/zip`: a name and
what opening it yields. -/
structure ZipEntry where
  name : String
  data : ZipMemberData
deriving DecidableEq, Repr

/-- Body bytes of a response as interpreted by `zip.NewReader`: either not a
valid container, or a sequence of named members in archive order. -/
inductive ZipData where
  | malformed (cause : String)
  | archive (files : List ZipEntry)
deriving DecidableEq, Repr

/-- The request observed by the HTTP transport: method, URL, and the
If-None-Match header value added by `download` (its only header). -/
structure HttpRequest where
  method : String
  url : String
  ifNoneMatch : String
deriving DecidableEq, Repr

/-- An HTTP response at the granularity `download` observes it:
status code, status line, the value of `resp.Header.Get("Etag")`, and the
result of `io.ReadAll(resp.Body)` (which may fail mid-stream). -/
structure HttpResponse where
  statusCode : Nat
  status : String
  etag : String
  bodyRead : Except String ZipData

/-- The HTTP client (`HTTPClient.Do`): maps a request to a transport error
or a response. -/
def Transport : Type := HttpRequest → Except String HttpResponse

/-- An `Entry` is Go's `[12]string`: a list of 12 strings.  The length-12
invariant is established by the theorems about `parseCSV`. -/
abbrev Entry := List String

/-- Models `strings.ToUpper`: uppercase each character (exact on ASCII,
which is the domain of real country codes; Unicode special casing is out
of scope of every claim). -/
def goToUpper (s : String) : String := ⟨s.data.map Char.toUpper⟩

/-- Go `normalizeCountryCode`: uppercases, and fails when the byte length
of the original input is not 2.  Note the uppercased string is returned
even on failure, and the error carries the original input and its byte
length. -/
def normalizeCountryCode (cc : String) : String × Option FetchError :=
  let r := goToUpper cc
  if cc.utf8ByteSize ≠ 2 then (r, some (.invalidCountryCode cc cc.utf8ByteSize))
  else (r, none)

/-- Go `downloadURL`. -/
def downloadURL (cc : String) : String :=
  "https://download.geonames.org/export/zip/" ++ cc ++ ".zip"

/-- Go `zippedFile`. -/
def zippedFile (cc : String) : String := cc ++ ".txt"

/-- Go `download`: builds a GET request with the If-None-Match header set to
the prior token, performs one round trip, and mirrors the Go result tuple
([]byte, bool, string, error), with nil bytes as `none`.  Status 304
echoes the prior token with no error; any status other than 200 is an
error; otherwise the body is read (which may itself fail) and the new
token is the response's Etag header.  (`http.NewRequest` cannot fail here
for the country codes the theorems quantify over: the URL is well-formed.) -/
def download (url etag : String) (transport : Transport) :
    Option ZipData × Bool × String × Option FetchError :=
  let req : HttpRequest := ⟨"GET", url, etag⟩
  match transport req with
  | .error cause => (none, false, "", some (.transport cause))
  | .ok resp =>
    if resp.statusCode = 304 then
      (none, false, etag, none)
    else if resp.statusCode ≠ 200 then
      (none, false, "", some (.unexpectedStatus resp.status))
    else
      match resp.bodyRead with
      | .error cause => (none, false, "", some (.readBody cause))
      | .ok body => (some body, true, resp.etag, none)

/-- Go `unzipFile`: interpret the bytes as a zip container, scan the member
list for the first exact name match, and return its decompressed content;
each failure mode produces the corresponding error. -/
def unzipFile (data : ZipData) (filename : String) : Except FetchError String :=
  match data with
  | .malformed cause => .error (.malformedArchive cause)
  | .archive files =>
    match files.find? (fun f => f.name == filename) with
    | none => .error (.memberNotFound filename)
    | some f =>
      match f.data with
      | .openFail cause => .error (.openMember filename cause)
      | .readFail cause => .error (.readMember cause)
      | .content text => .ok text

/-- Records produced by the csv reader model on quote-free, carriage-return
free text: split into lines on the newline character, skip blank lines,
split each line into fields on the tab character. -/
def csvRecords (data : String) : List (List String) :=
  ((data.data.splitOn '\n').filter (fun l => l ≠ [])).map
    (fun line => (line.splitOn '\t').map (fun cs => (⟨cs⟩ : String)))

/-- Models `csv.Reader.ReadAll` with `Comma = '\t'` on quote-free,
carriage-return free input: with the default `FieldsPerRecord = 0` the
first record fixes the expected field count and any later record with a
different count makes `ReadAll` fail. -/
def csvReadAll (data : String) : Except CsvErr (List (List String)) :=
  match csvRecords data with
  | [] => .ok []
  | r :: rs =>
    if rs.all (fun x => x.length == r.length) then .ok (r :: rs)
    else .error .fieldCount

/-- Go `var e Entry`: the zero value of [12]string, twelve empty strings. -/
def emptyEntry : Entry := List.replicate 12 ""

/-- Go `for ii, col := range columns { e[ii] = col }` with `e` of type
[12]string: assign each column at its index, panicking on an out-of-range
index (ii ≥ 12), exactly as the Go runtime does. -/
def assignColumns (e : Entry) (ii : Nat) : List String → PanicOr Entry
  | [] => .returns e
  | col :: cols =>
    if ii < 12 then assignColumns (e.set ii col) (ii + 1) cols
    else .panics

/-- The per-row loop body of Go `parseCSV`, over all rows in order; a panic
in any row aborts the whole run. -/
def buildEntries : List (List String) → PanicOr (List Entry)
  | [] => .returns []
  | row :: rows =>
    match assignColumns emptyEntry 0 row with
    | .panics => .panics
    | .returns e =>
      match buildEntries rows with
      | .panics => .panics
      | .returns es => .returns (e :: es)

/-- Go `parseCSV`: read all records with the tab-delimited csv reader, then
copy each row positionally into a fresh zero-valued Entry. -/
def parseCSV (data : String) : PanicOr (Except FetchError (List Entry)) :=
  match csvReadAll data with
  | .error e => .returns (.error (.csv e))
  | .ok table =>
    match buildEntries table with
    | .panics => .panics
    | .returns es => .returns (.ok es)

/-- Go `FetchCountry`: the orchestrator.  Its four Go results
(entries, modified, newEtag, err) are named returns initialized to
(nil, false, "", nil); later stages assign `modified`, `newEtag` and `err`
in place, so an extraction or parse error is returned together with
modified=true and the new token from the 200 response. -/
def FetchCountry (cc etag : String) (transport : Transport) :
    PanicOr (List Entry × Bool × String × Option FetchError) :=
  match normalizeCountryCode cc with
  | (_, some e) => .returns ([], false, "", some e)
  | (ccUp, none) =>
    let url := downloadURL ccUp
    match download url etag transport with
    | (_, false, newEtag, derr) => .returns ([], false, newEtag, derr)
    | (_, true, newEtag, some e) => .returns ([], true, newEtag, some e)
    | (zipOpt, true, newEtag, none) =>
      let zipData := zipOpt.getD (.malformed "zip: not a valid zip file")
      let filename := zippedFile ccUp
      match unzipFile zipData filename with
      | .error e => .returns ([], true, newEtag, some e)
      | .ok csvData =>
        match parseCSV csvData with
        | .panics => .panics
        | .returns (.error e) => .returns ([], true, newEtag, some e)
        | .returns (.ok entries) => .returns (entries, true, newEtag, none)

/-- Spec-side description of the Entry a row of at most 12 columns maps to:
the columns positionally, with trailing slots left as the empty string. -/
def padRow (row : List String) : Entry :=
  row ++ List.replicate (12 - row.length) ""

/-- Spec-side construction of one tab-delimited line from its fields. -/
def tsvLine (row : List String) : String := String.intercalate "\t" row

/-- Spec-side construction of a tab-delimited text of several lines. -/
def tsvContent (lines : List (List String)) : String :=
  String.intercalate "\n" (lines.map tsvLine)

/-! ### Concrete data used by witnesses and counterexamples -/

/-- A single csv row with 13 tab-separated columns. -/
def wideInput : String := "a\tb\tc\td\te\tf\tg\th\ti\tj\tk\tl\tm"

/-- Another single csv row with 13 tab-separated columns. -/
def wideInput2 : String := "q0\tq1\tq2\tq3\tq4\tq5\tq6\tq7\tq8\tq9\tq10\tq11\tq12"

/-- A third single csv row with 13 tab-separated columns. -/
def wideInput3 : String := "r0\tr1\tr2\tr3\tr4\tr5\tr6\tr7\tr8\tr9\tr10\tr11\tr12"

/-- A GeoNames-style postal record (12 fields, all tab- and newline-free). -/
def deRow : List String :=
  ["DE", "54668", "Ferschweiler", "Rheinland-Pfalz", "RP", "", "00",
   "Eifelkreis Bitburg-Pruem", "07232", "49.8667", "6.4", "4"]

/-- A one-line member content made from the record above. -/
def deLines : List (List String) := [deRow]

/-- A valid archive holding the member DE.txt with that content. -/
def deArchive : ZipData := .archive [⟨"DE.txt", .content (tsvContent deLines)⟩]

/-- A fresh 200 response carrying the archive and a new token. -/
def respOk : HttpResponse := ⟨200, "200 OK", "new_etag", .ok deArchive⟩

/-- A transport that always answers with the fresh 200 response. -/
def transportOk : Transport := fun _ => .ok respOk

/-- A 304 response whose body is not even readable, to witness that the
not-modified path touches no body. -/
def respNotMod : HttpResponse := ⟨304, "304 Not Modified", "", .error "no body"⟩

/-- A transport that always answers 304. -/
def transportNotMod : Transport := fun _ => .ok respNotMod

/-- A 200 response whose archive lacks the expected member name. -/
def respMissing : HttpResponse :=
  ⟨200, "200 OK", "etag_m", .ok (.archive [⟨"US.txt", .content ""⟩, ⟨"readme.txt", .content "x"⟩])⟩

/-- A transport that always answers with the member-missing archive. -/
def transportMissing : Transport := fun _ => .ok respMissing

/-- A 200 response whose member content has inconsistent field counts
(first record one field, second record two), failing the csv reader. -/
def respBadCsv : HttpResponse :=
  ⟨200, "200 OK", "etag_b", .ok (.archive [⟨"DE.txt", .content "a\nb\tc"⟩])⟩

/-- A transport that always answers with the bad-csv archive. -/
def transportBadCsv : Transport := fun _ => .ok respBadCsv

/-- A 200 response whose expected member is empty. -/
def respEmptyMember : HttpResponse :=
  ⟨200, "200 OK", "etag_e", .ok (.archive [⟨"DE.txt", .content ""⟩])⟩

/-- A transport that always answers with the empty-member archive. -/
def transportEmptyMember : Transport := fun _ => .ok respEmptyMember

/-- A transport that always fails; used to show some results never consult it. -/
def transportDown : Transport := fun _ => .error "connection refused"

/-- A full 12-field line with every field populated, for the round trip. -/
def fullLine : String :=
  "DE\t54668\tFerschweiler\tRheinland-Pfalz\tRP\tEifel\t00\tBitburg\t07232\t49.8667\t6.4\t4"

/-! ### Behaviour of the entry-building loop -/

theorem set_append_cons {α : Type} (l1 : List α) (a b : α) (l2 : List α) :
    (l1 ++ a :: l2).set l1.length b = l1 ++ b :: l2 := by
  induction l1 with
  | nil => rfl
  | cons h t ih => simp [ih]

theorem assignColumns_eq (row : List String) :
    ∀ (p s : List String), p.length + s.length = 12 → row.length ≤ s.length →
      assignColumns (p ++ s) p.length row = .returns (p ++ row ++ s.drop row.length) := by
  induction row with
  | nil => intro p s _ _; simp [assignColumns]
  | cons c cs ih =>
    intro p s hlen hle
    match s with
    | [] => simp at hle
    | s0 :: srest =>
      have hp : p.length < 12 := by simp at hlen; omega
      rw [assignColumns, if_pos hp, set_append_cons]
      have h1 : p ++ c :: srest = (p ++ [c]) ++ srest := by simp
      have h2 : p.length + 1 = (p ++ [c]).length := by simp
      rw [h1, h2, ih (p ++ [c]) srest (by simp at hlen ⊢; omega) (by simp at hle ⊢; omega)]
      simp

theorem assignColumns_padRow (row : List String) (h : row.length ≤ 12) :
    assignColumns emptyEntry 0 row = .returns (padRow row) := by
  have h2 := assignColumns_eq row [] (List.replicate 12 "") (by simp) (by simpa using h)
  simp only [List.nil_append, List.length_nil, List.drop_replicate] at h2
  simpa only [emptyEntry, padRow] using h2

theorem assignColumns_panics (row : List String) :
    ∀ (ii : Nat) (e : Entry), ii ≤ 12 → 12 < ii + row.length →
      assignColumns e ii row = .panics := by
  induction row with
  | nil => intro ii e h1 h2; simp at h2; omega
  | cons c cs ih =>
    intro ii e h1 h2
    by_cases h : ii < 12
    · rw [assignColumns, if_pos h]
      exact ih (ii + 1) _ (by omega) (by simp at h2 ⊢; omega)
    · rw [assignColumns, if_neg h]

theorem buildEntries_map (table : List (List String))
    (h : ∀ r ∈ table, r.length ≤ 12) :
    buildEntries table = .returns (table.map padRow) := by
  induction table with
  | nil => rfl
  | cons t ts ih =>
    rw [buildEntries, assignColumns_padRow t (h t (by simp)),
      ih (fun r hr => h r (by simp [hr]))]
    rfl

theorem buildEntries_panics (table : List (List String)) (r : List String)
    (hr : r ∈ table) (hlen : 12 < r.length) : buildEntries table = .panics := by
  induction table with
  | nil => cases hr
  | cons t ts ih =>
    rw [buildEntries]
    rcases List.mem_cons.mp hr with h | h
    · rw [← h, assignColumns_panics r 0 emptyEntry (by omega) (by omega)]
    · match hass : assignColumns emptyEntry 0 t with
      | .panics => rfl
      | .returns e => rw [ih h]

/-! ### Relating Lean string joins to character-list joins -/

theorem string_mk_data (s : String) : (⟨s.data⟩ : String) = s := by
  cases s
  rfl

theorem strGo_data (s : String) :
    ∀ (as : List String) (acc : String),
      (String.intercalate.go acc s as).data =
        acc.data ++ (as.map (fun a => s.data ++ a.data)).flatten := by
  intro as
  induction as with
  | nil => intro acc; simp [String.intercalate.go]
  | cons a as ih =>
    intro acc
    rw [String.intercalate.go, ih]
    simp

theorem listIntercalate_flatten {α : Type} (sep : List α) (a : List α)
    (as : List (List α)) :
    List.intercalate sep (a :: as) = a ++ (as.map (fun x => sep ++ x)).flatten := by
  induction as generalizing a with
  | nil => simp [List.intercalate]
  | cons b bs ih =>
    have step : List.intercalate sep (a :: b :: bs) =
        a ++ sep ++ List.intercalate sep (b :: bs) := by
      simp [List.intercalate]
    rw [step, ih b]
    simp

theorem strIntercalate_data (s : String) (ss : List String) :
    (String.intercalate s ss).data = List.intercalate s.data (ss.map String.data) := by
  match ss with
  | [] => simp [String.intercalate, List.intercalate]
  | a :: as =>
    show (String.intercalate.go a s as).data = _
    rw [strGo_data, List.map_cons, listIntercalate_flatten]
    simp only [List.map_map]
    rfl

theorem not_mem_intercalate {α : Type} (x : α) (sep : List α) (ls : List (List α))
    (hsep : x ∉ sep) (h : ∀ l ∈ ls, x ∉ l) : x ∉ List.intercalate sep ls := by
  match ls with
  | [] => simp [List.intercalate]
  | a :: as =>
    rw [listIntercalate_flatten]
    intro hmem
    rcases List.mem_append.mp hmem with ha | hflat
    · exact h a (List.mem_cons_self a as) ha
    · rcases List.mem_flatten.mp hflat with ⟨l, hlmem, hxl⟩
      rcases List.mem_map.mp hlmem with ⟨y, hy, rfl⟩
      rcases List.mem_append.mp hxl with h1 | h1
      · exact hsep h1
      · exact h y (List.mem_cons_of_mem a hy) h1

theorem tsvLine_data (row : List String) :
    (tsvLine row).data = List.intercalate ['\t'] (row.map String.data) := by
  rw [tsvLine, strIntercalate_data]

theorem tsvContent_data (lines : List (List String)) :
    (tsvContent lines).data =
      List.intercalate ['\n'] (lines.map (fun row => (tsvLine row).data)) := by
  rw [tsvContent, strIntercalate_data, List.map_map]
  rfl

/-! ### The csv model on well-formed tab-separated content -/

theorem csvRecords_tsv (lines : List (List String))
    (hne : lines ≠ [])
    (hrow : ∀ row ∈ lines, row ≠ [])
    (hlineNe : ∀ row ∈ lines, (tsvLine row).data ≠ [])
    (hfield : ∀ row ∈ lines, ∀ f ∈ row, '\t' ∉ f.data ∧ '\n' ∉ f.data) :
    csvRecords (tsvContent lines) = lines := by
  have hnl : ∀ l ∈ lines.map (fun row => (tsvLine row).data), '\n' ∉ l := by
    intro l hl
    rcases List.mem_map.mp hl with ⟨row, hrowmem, rfl⟩
    rw [tsvLine_data]
    refine not_mem_intercalate _ _ _ (by simp) ?_
    intro fd hfd
    rcases List.mem_map.mp hfd with ⟨f, hf, rfl⟩
    exact (hfield row hrowmem f hf).2
  have hsplit : (tsvContent lines).data.splitOn '\n' =
      lines.map (fun row => (tsvLine row).data) := by
    rw [tsvContent_data]
    exact List.splitOn_intercalate _ '\n' hnl (by simpa using hne)
  rw [csvRecords, hsplit]
  have hfilter : (lines.map (fun row => (tsvLine row).data)).filter
      (fun l => l ≠ []) = lines.map (fun row => (tsvLine row).data) := by
    rw [List.filter_eq_self]
    intro a ha
    rcases List.mem_map.mp ha with ⟨row, hrowmem, rfl⟩
    simpa using hlineNe row hrowmem
  rw [hfilter, List.map_map]
  have hline : ∀ row ∈ lines,
      ((tsvLine row).data.splitOn '\t').map (fun cs => (⟨cs⟩ : String)) = row := by
    intro row hrowmem
    have hx : ∀ l ∈ row.map String.data, '\t' ∉ l := by
      intro l hl
      rcases List.mem_map.mp hl with ⟨f, hf, rfl⟩
      exact (hfield row hrowmem f hf).1
    rw [tsvLine_data,
      List.splitOn_intercalate _ '\t' hx (by simpa using hrow row hrowmem),
      List.map_map]
    have hpt : ∀ f ∈ row, ((fun cs => (⟨cs⟩ : String)) ∘ String.data) f = id f := by
      intro f _
      simp [Function.comp, string_mk_data]
    rw [List.map_congr_left hpt, List.map_id]
  calc lines.map ((fun line => (line.splitOn '\t').map (fun cs => (⟨cs⟩ : String))) ∘
        (fun row => (tsvLine row).data)) =
      lines.map id := List.map_congr_left (fun row hm => hline row hm)
    _ = lines := List.map_id lines

theorem tsvLine_data_ne_nil (row : List String) (h : 2 ≤ row.length) :
    (tsvLine row).data ≠ [] := by
  match row with
  | [] => simp at h
  | [f0] => simp at h
  | f0 :: f1 :: rest =>
    rw [tsvLine_data]
    simp [listIntercalate_flatten]

theorem csvReadAll_tsv (lines : List (List String)) (hne : lines ≠ [])
    (hlen : ∀ row ∈ lines, row.length = 12)
    (hfield : ∀ row ∈ lines, ∀ f ∈ row, '\t' ∉ f.data ∧ '\n' ∉ f.data) :
    csvReadAll (tsvContent lines) = .ok lines := by
  have hrow : ∀ row ∈ lines, row ≠ [] := by
    intro row hm hnil
    have := hlen row hm
    rw [hnil] at this
    simp at this
  have hlineNe : ∀ row ∈ lines, (tsvLine row).data ≠ [] := by
    intro row hm
    exact tsvLine_data_ne_nil row (by rw [hlen row hm]; omega)
  have hrec := csvRecords_tsv lines hne hrow hlineNe hfield
  rw [csvReadAll, hrec]
  match lines, hne, hlen with
  | r :: rs, _, hlen =>
    have hall : rs.all (fun x => x.length == r.length) = true := by
      rw [List.all_eq_true]
      intro x hx
      simp [hlen x (List.mem_cons_of_mem r hx), hlen r (List.mem_cons_self r rs)]
    simp only [hall, if_true]

theorem parseCSV_of_readAll (data : String) (table : List (List String))
    (hread : csvReadAll data = .ok table) (hle : ∀ r ∈ table, r.length ≤ 12) :
    parseCSV data = .returns (.ok (table.map padRow)) := by
  simp [parseCSV, hread, buildEntries_map table hle]

theorem padRow_of_length_twelve (row : List String) (h : row.length = 12) :
    padRow row = row := by
  simp [padRow, h]

theorem parseCSV_tsv (lines : List (List String)) (hne : lines ≠ [])
    (hlen : ∀ row ∈ lines, row.length = 12)
    (hfield : ∀ row ∈ lines, ∀ f ∈ row, '\t' ∉ f.data ∧ '\n' ∉ f.data) :
    parseCSV (tsvContent lines) = .returns (.ok lines) := by
  rw [parseCSV_of_readAll (tsvContent lines) lines
    (csvReadAll_tsv lines hne hlen hfield)
    (fun r hr => by rw [hlen r hr]),
    List.map_congr_left (fun r hr => padRow_of_length_twelve r (hlen r hr))]
  simp

/-! ### Control flow of the orchestrator -/

theorem normalize_ok (cc : String) (h : cc.utf8ByteSize = 2) :
    normalizeCountryCode cc = (goToUpper cc, none) := by
  simp [normalizeCountryCode, h]

theorem download_ok (url etag : String) (transport : Transport) (resp : HttpResponse)
    (zd : ZipData) (htr : transport ⟨"GET", url, etag⟩ = .ok resp)
    (hst : resp.statusCode = 200) (hbody : resp.bodyRead = .ok zd) :
    download url etag transport = (some zd, true, resp.etag, none) := by
  simp [download, htr, hst, hbody]

theorem download_304 (url etag : String) (transport : Transport) (resp : HttpResponse)
    (htr : transport ⟨"GET", url, etag⟩ = .ok resp) (hst : resp.statusCode = 304) :
    download url etag transport = (none, false, etag, none) := by
  simp [download, htr, hst]

theorem FetchCountry_modified (cc etag : String) (transport : Transport)
    (resp : HttpResponse) (zd : ZipData) (hcc : cc.utf8ByteSize = 2)
    (htr : transport ⟨"GET", downloadURL (goToUpper cc), etag⟩ = .ok resp)
    (hst : resp.statusCode = 200) (hbody : resp.bodyRead = .ok zd) :
    FetchCountry cc etag transport =
      match unzipFile zd (zippedFile (goToUpper cc)) with
      | .error e => .returns ([], true, resp.etag, some e)
      | .ok csvData =>
        match parseCSV csvData with
        | .panics => .panics
        | .returns (.error e) => .returns ([], true, resp.etag, some e)
        | .returns (.ok entries) => .returns (entries, true, resp.etag, none) := by
  simp only [FetchCountry, normalize_ok cc hcc,
    download_ok _ _ _ _ _ htr hst hbody, Option.getD_some]

/-! ### Claims -/

/-- C2: for every fetch that receives an HTTP 200 OK response whose body is
a valid archive containing the expected member with N well-formed
tab-delimited lines (12 fields per line, fields free of tab, newline,
quote and carriage-return characters — the domain on which the csv model
is exact), FetchCountry returns exactly those N entries in line order
(the i-th entry holding the fields of the i-th line), modified = true, and
a new token equal to the response's ETag header value, with no error. -/
theorem C2_ok_fetch_returns_entries (cc etag : String) (transport : Transport)
    (resp : HttpResponse) (files : List ZipEntry) (f : ZipEntry)
    (lines : List (List String))
    (hcc : cc.utf8ByteSize = 2)
    (htr : transport ⟨"GET", downloadURL (goToUpper cc), etag⟩ = .ok resp)
    (hst : resp.statusCode = 200)
    (hbody : resp.bodyRead = .ok (.archive files))
    (hfind : files.find? (fun g => g.name == zippedFile (goToUpper cc)) = some f)
    (hcontent : f.data = .content (tsvContent lines))
    (hne : lines ≠ [])
    (hlen : ∀ row ∈ lines, row.length = 12)
    (hfield : ∀ row ∈ lines, ∀ fd ∈ row,
      '\t' ∉ fd.data ∧ '\n' ∉ fd.data ∧ '\"' ∉ fd.data ∧ '\r' ∉ fd.data) :
    FetchCountry cc etag transport = .returns (lines, true, resp.etag, none) := by
  have hz : unzipFile (.archive files) (zippedFile (goToUpper cc)) =
      .ok (tsvContent lines) := by
    simp [unzipFile, hfind, hcontent]
  rw [FetchCountry_modified cc etag transport resp (.archive files) hcc htr hst hbody]
  simp only [hz, parseCSV_tsv lines hne hlen
    (fun row hr fd hf => ⟨(hfield row hr fd hf).1, (hfield row hr fd hf).2.1⟩)]

/-- Witness for C2 at a concrete 200 response whose archive member DE.txt
holds one 12-field GeoNames record: one entry comes back, modified, with
the response's token. -/
theorem C2_witness :
    FetchCountry "de" "old_etag" transportOk = .returns (deLines, true, "new_etag", none) :=
  C2_ok_fetch_returns_entries "de" "old_etag" transportOk respOk
    [⟨"DE.txt", .content (tsvContent deLines)⟩] ⟨"DE.txt", .content (tsvContent deLines)⟩
    deLines (by decide) rfl rfl rfl (by decide) rfl (by decide) (by decide) (by decide)

/-- C3: for every call where the HTTP response has status 304 Not
Modified, FetchCountry returns an empty entries sequence, modified =
false, the prior token that was sent, and no error.  The response body is
left fully unconstrained by the hypotheses, so no extraction or parsing of
it can influence the result. -/
theorem C3_not_modified (cc etag : String) (transport : Transport)
    (resp : HttpResponse)
    (hcc : cc.utf8ByteSize = 2)
    (htr : transport ⟨"GET", downloadURL (goToUpper cc), etag⟩ = .ok resp)
    (hst : resp.statusCode = 304) :
    FetchCountry cc etag transport = .returns ([], false, etag, none) := by
  simp only [FetchCountry, normalize_ok cc hcc, download_304 _ _ _ _ htr hst]

/-- Witness for C3 at a concrete 304 response (whose body is not even
readable): the prior token comes back unchanged with no error. -/
theorem C3_witness :
    FetchCountry "de" "current_etag" transportNotMod =
      .returns ([], false, "current_etag", none) :=
  C3_not_modified "de" "current_etag" transportNotMod respNotMod (by decide) rfl rfl

/-- C4: for every input country code whose byte length is not 2,
FetchCountry returns the invalid-country-code error carrying the original
(non-uppercased) input and its byte length — with a result that is the
same constant for every transport, i.e. no network call is performed —
and every 2-byte input, regardless of characters, normalizes successfully
to its uppercase form. -/
theorem C4_invalid_country_code :
    (∀ (cc etag : String) (transport : Transport), cc.utf8ByteSize ≠ 2 →
      FetchCountry cc etag transport =
        .returns ([], false, "", some (.invalidCountryCode cc cc.utf8ByteSize))) ∧
    (∀ cc : String, cc.utf8ByteSize = 2 →
      normalizeCountryCode cc = (goToUpper cc, none)) := by
  constructor
  · intro cc etag transport h
    simp [FetchCountry, normalizeCountryCode, h]
  · intro cc h
    exact normalize_ok cc h

/-- Witness for C4: a 3-byte code fails with the original input and its
length even on a dead transport, and an arbitrary 2-byte input
normalizes to its uppercase form. -/
theorem C4_witness :
    FetchCountry "deu" "tok" transportDown =
      .returns ([], false, "", some (.invalidCountryCode "deu" 3)) ∧
    normalizeCountryCode "a!" = ("A!", none) :=
  ⟨C4_invalid_country_code.1 "deu" "tok" transportDown (by decide),
   C4_invalid_country_code.2 "a!" (by decide)⟩

/-- C5: for every call to FetchCountry, whenever the call returns with a
non-nil error — at whichever pipeline stage the error occurred — the
returned entries sequence is empty. -/
theorem C5_no_partial_entries (cc etag : String) (transport : Transport)
    (entries : List Entry) (modified : Bool) (newEtag : String)
    (err : Option FetchError)
    (hret : FetchCountry cc etag transport = .returns (entries, modified, newEtag, err))
    (herr : err ≠ none) : entries = [] := by
  simp only [FetchCountry] at hret
  split at hret
  · simp only [PanicOr.returns.injEq, Prod.mk.injEq] at hret
    exact hret.1.symm
  · split at hret
    · simp only [PanicOr.returns.injEq, Prod.mk.injEq] at hret
      exact hret.1.symm
    · simp only [PanicOr.returns.injEq, Prod.mk.injEq] at hret
      exact hret.1.symm
    · split at hret
      · simp only [PanicOr.returns.injEq, Prod.mk.injEq] at hret
        exact hret.1.symm
      · split at hret
        · exact PanicOr.noConfusion hret
        · simp only [PanicOr.returns.injEq, Prod.mk.injEq] at hret
          exact hret.1.symm
        · simp only [PanicOr.returns.injEq, Prod.mk.injEq] at hret
          exact absurd hret.2.2.2.symm herr

/-- Witness for C5 at a concrete erroring call (unexpected member missing
from the archive): the hypotheses are satisfiable and the entries are
empty. -/
theorem C5_witness : ([] : List Entry) = [] :=
  C5_no_partial_entries "de" "tok" transportMissing [] true "etag_m"
    (some (.memberNotFound "DE.txt")) (by decide) (by decide)

/-- C6: when the fetch succeeds with status 200 but archive extraction or
record parsing fails, FetchCountry returns that non-nil error together
with modified = true and the new ETag taken from the 200 response, not
the caller's prior token. -/
theorem C6_error_after_ok_keeps_new_etag (cc etag : String)
    (transport : Transport) (resp : HttpResponse) (zd : ZipData)
    (hcc : cc.utf8ByteSize = 2)
    (htr : transport ⟨"GET", downloadURL (goToUpper cc), etag⟩ = .ok resp)
    (hst : resp.statusCode = 200) (hbody : resp.bodyRead = .ok zd) :
    (∀ e, unzipFile zd (zippedFile (goToUpper cc)) = .error e →
      FetchCountry cc etag transport = .returns ([], true, resp.etag, some e)) ∧
    (∀ csvData e, unzipFile zd (zippedFile (goToUpper cc)) = .ok csvData →
      parseCSV csvData = .returns (.error e) →
      FetchCountry cc etag transport = .returns ([], true, resp.etag, some e)) := by
  constructor
  · intro e hz
    rw [FetchCountry_modified cc etag transport resp zd hcc htr hst hbody]
    simp only [hz]
  · intro csvData e hz hp
    rw [FetchCountry_modified cc etag transport resp zd hcc htr hst hbody]
    simp only [hz, hp]

/-- Witness for C6: an archive missing DE.txt and an archive whose DE.txt
has inconsistent field counts both surface their error together with
modified = true and the fresh response token. -/
theorem C6_witness :
    FetchCountry "de" "prior" transportMissing =
      .returns ([], true, "etag_m", some (.memberNotFound "DE.txt")) ∧
    FetchCountry "de" "prior" transportBadCsv =
      .returns ([], true, "etag_b", some (.csv .fieldCount)) :=
  ⟨(C6_error_after_ok_keeps_new_etag "de" "prior" transportMissing respMissing
      (.archive [⟨"US.txt", .content ""⟩, ⟨"readme.txt", .content "x"⟩])
      (by decide) rfl rfl rfl).1 (.memberNotFound "DE.txt") rfl,
   (C6_error_after_ok_keeps_new_etag "de" "prior" transportBadCsv respBadCsv
      (.archive [⟨"DE.txt", .content "a\nb\tc"⟩])
      (by decide) rfl rfl rfl).2 "a\nb\tc" (.csv .fieldCount) rfl rfl⟩

/-- C8: for every valid archive containing no member named exactly
COUNTRYCODE.txt (uppercase code), extraction fails with the error naming
that missing filename and FetchCountry returns no entries. -/
theorem C8_member_not_found (cc etag : String) (transport : Transport)
    (resp : HttpResponse) (files : List ZipEntry)
    (hcc : cc.utf8ByteSize = 2)
    (htr : transport ⟨"GET", downloadURL (goToUpper cc), etag⟩ = .ok resp)
    (hst : resp.statusCode = 200)
    (hbody : resp.bodyRead = .ok (.archive files))
    (hmiss : ∀ f ∈ files, f.name ≠ zippedFile (goToUpper cc)) :
    unzipFile (.archive files) (zippedFile (goToUpper cc)) =
      .error (.memberNotFound (zippedFile (goToUpper cc))) ∧
    FetchCountry cc etag transport =
      .returns ([], true, resp.etag, some (.memberNotFound (zippedFile (goToUpper cc)))) := by
  have hfind : files.find? (fun f => f.name == zippedFile (goToUpper cc)) = none := by
    rw [List.find?_eq_none]
    intro f hf
    simpa using hmiss f hf
  have hz : unzipFile (.archive files) (zippedFile (goToUpper cc)) =
      .error (.memberNotFound (zippedFile (goToUpper cc))) := by
    simp [unzipFile, hfind]
  refine ⟨hz, ?_⟩
  rw [FetchCountry_modified cc etag transport resp (.archive files) hcc htr hst hbody]
  simp only [hz]

/-- Witness for C8 at an archive holding only US.txt and readme.txt while
DE.txt is expected. -/
theorem C8_witness :
    unzipFile (.archive [⟨"US.txt", .content ""⟩, ⟨"readme.txt", .content "x"⟩]) "DE.txt" =
      .error (.memberNotFound "DE.txt") ∧
    FetchCountry "de" "tok" transportMissing =
      .returns ([], true, "etag_m", some (.memberNotFound "DE.txt")) :=
  C8_member_not_found "de" "tok" transportMissing respMissing
    [⟨"US.txt", .content ""⟩, ⟨"readme.txt", .content "x"⟩]
    (by decide) rfl rfl rfl (by decide)

/-- C10: parsing an empty decompressed byte sequence yields an empty
entries sequence and no error, so a successful 200 fetch whose expected
archive member is empty yields zero entries, modified = true, the fresh
token, and a nil error. -/
theorem C10_empty_member (cc etag : String) (transport : Transport)
    (resp : HttpResponse) (files : List ZipEntry) (f : ZipEntry)
    (hcc : cc.utf8ByteSize = 2)
    (htr : transport ⟨"GET", downloadURL (goToUpper cc), etag⟩ = .ok resp)
    (hst : resp.statusCode = 200)
    (hbody : resp.bodyRead = .ok (.archive files))
    (hfind : files.find? (fun g => g.name == zippedFile (goToUpper cc)) = some f)
    (hcontent : f.data = .content "") :
    parseCSV "" = .returns (.ok []) ∧
    FetchCountry cc etag transport = .returns ([], true, resp.etag, none) := by
  have hp : parseCSV "" = .returns (.ok []) := rfl
  refine ⟨hp, ?_⟩
  have hz : unzipFile (.archive files) (zippedFile (goToUpper cc)) = .ok "" := by
    simp [unzipFile, hfind, hcontent]
  rw [FetchCountry_modified cc etag transport resp (.archive files) hcc htr hst hbody]
  simp only [hz, hp]

/-- Witness for C10 at a concrete 200 response whose DE.txt member is the
empty byte sequence. -/
theorem C10_witness :
    parseCSV "" = .returns (.ok []) ∧
    FetchCountry "de" "tok" transportEmptyMember =
      .returns ([], true, "etag_e", none) :=
  C10_empty_member "de" "tok" transportEmptyMember respEmptyMember
    [⟨"DE.txt", .content ""⟩] ⟨"DE.txt", .content ""⟩
    (by decide) rfl rfl rfl (by decide) rfl

/-- C1 is false as stated: at this concrete input whose single row has 13
tab-delimited columns, the record parser does not succeed with a
truncated Entry — building the Entry writes out of range and panics. -/
theorem C1_counterexample :
    (∀ r ∈ csvRecords wideInput, r.length = 13) ∧
    csvRecords wideInput ≠ [] ∧
    parseCSV wideInput = .panics := by
  decide

/-- C1 (amended): for every parsed input row with more than 12
tab-delimited columns, the parser does not silently ignore the extras:
the positional assignment into the 12-slot Entry reaches index 12, which
is out of range, and the run panics; no Entry is produced.  (When a later
row's column count differs from the first row's, the csv reader instead
fails with a field-count error before any Entry is built.) -/
theorem C1_more_columns_panics (data : String) (table : List (List String))
    (r : List String) (hread : csvReadAll data = .ok table) (hr : r ∈ table)
    (hlen : 12 < r.length) : parseCSV data = .panics := by
  simp [parseCSV, hread, buildEntries_panics table r hr hlen]

/-- Witness for the amended C1 at a second concrete 13-column row. -/
theorem C1_witness : parseCSV wideInput2 = .panics :=
  C1_more_columns_panics wideInput2
    [["q0", "q1", "q2", "q3", "q4", "q5", "q6", "q7", "q8", "q9", "q10", "q11", "q12"]]
    ["q0", "q1", "q2", "q3", "q4", "q5", "q6", "q7", "q8", "q9", "q10", "q11", "q12"]
    (by decide) (by decide) (by decide)

/-- C7 is false as stated for rows with more than 12 columns: at this
concrete input the parsed row produces no Entry at all — the parser
panics. -/
theorem C7_counterexample :
    csvRecords wideInput3 ≠ [] ∧
    (∀ r ∈ csvRecords wideInput3, 12 < r.length) ∧
    parseCSV wideInput3 = .panics := by
  decide

/-- C7 (amended): for every parsed input row of a table whose rows all
have at most 12 columns, the parser produces exactly one Entry per row in
input order with the row's values copied positionally into the 12 fixed
slots, and for a row with fewer than 12 columns every trailing slot
beyond the row's column count is the empty string. -/
theorem C7_positional_copy (data : String) (table : List (List String))
    (hread : csvReadAll data = .ok table) (hle : ∀ r ∈ table, r.length ≤ 12) :
    parseCSV data = .returns (.ok (table.map padRow)) ∧
    (∀ r ∈ table, (padRow r).length = 12) ∧
    (∀ r ∈ table, ∀ i : Nat, i < r.length → (padRow r).getD i "" = r.getD i "") ∧
    (∀ r ∈ table, ∀ i : Nat, r.length ≤ i → i < 12 → (padRow r).getD i "" = "") := by
  refine ⟨parseCSV_of_readAll data table hread hle, ?_, ?_, ?_⟩
  · intro r hr
    have := hle r hr
    simp only [padRow, List.length_append, List.length_replicate]
    omega
  · intro r _ i hi
    simp [padRow, List.getElem?_append_left hi]
  · intro r _ i h1 _
    simp only [padRow, List.getD_eq_getElem?_getD, List.getElem?_append_right h1,
      List.getElem?_replicate]
    split <;> rfl

/-- Witness for the amended C7 at a concrete two-column row: one Entry,
both values copied, ten trailing slots empty. -/
theorem C7_witness :
    parseCSV "ab\tcd" = .returns (.ok ([["ab", "cd"]].map padRow)) ∧
    (∀ r ∈ [["ab", "cd"]], (padRow r).length = 12) ∧
    (∀ r ∈ [["ab", "cd"]], ∀ i : Nat, i < r.length → (padRow r).getD i "" = r.getD i "") ∧
    (∀ r ∈ [["ab", "cd"]], ∀ i : Nat, r.length ≤ i → i < 12 → (padRow r).getD i "" = "") :=
  C7_positional_copy "ab\tcd" [["ab", "cd"]] (by decide) (by decide)

/-- C9: for every input line splitting into 12 populated tab-separated
fields, with no tab, quote, carriage return or line break characters
inside the fields, parsing the line yields the single Entry of those 12
fields and re-joining the Entry's fields with the tab delimiter
reproduces the original line. -/
theorem C9_round_trip (line : String)
    (h12 : (line.data.splitOn '\t').length = 12)
    (hpop : ∀ p ∈ line.data.splitOn '\t', p ≠ [])
    (hnl : '\n' ∉ line.data)
    (hq : '\"' ∉ line.data)
    (hcr : '\r' ∉ line.data) :
    parseCSV line =
      .returns (.ok [(line.data.splitOn '\t').map (fun cs => (⟨cs⟩ : String))]) ∧
    String.intercalate "\t" ((line.data.splitOn '\t').map (fun cs => (⟨cs⟩ : String))) =
      line := by
  have hlineNe : line.data ≠ [] := by
    intro h0
    rw [h0] at h12
    simp at h12
  have hsplit : line.data.splitOn '\n' = [line.data] := by
    rw [List.splitOn]
    refine List.splitOnP_eq_single _ _ ?_
    intro y hy hbeq
    rw [beq_iff_eq] at hbeq
    exact hnl (hbeq ▸ hy)
  have hrec : csvRecords line =
      [(line.data.splitOn '\t').map (fun cs => (⟨cs⟩ : String))] := by
    rw [csvRecords, hsplit]
    simp [hlineNe]
  have hread : csvReadAll line =
      .ok [(line.data.splitOn '\t').map (fun cs => (⟨cs⟩ : String))] := by
    rw [csvReadAll, hrec]
    simp
  have hlen12 : ((line.data.splitOn '\t').map (fun cs => (⟨cs⟩ : String))).length = 12 := by
    rw [List.length_map, h12]
  constructor
  · rw [parseCSV_of_readAll line _ hread
      (fun r hr => by rw [List.mem_singleton.mp hr, hlen12])]
    simp [padRow_of_length_twelve _ hlen12]
  · apply String.ext
    rw [strIntercalate_data, List.map_map]
    have hcomp : ∀ cs ∈ line.data.splitOn '\t',
        (String.data ∘ (fun cs => (⟨cs⟩ : String))) cs = id cs := fun cs _ => rfl
    rw [List.map_congr_left hcomp, List.map_id]
    exact List.intercalate_splitOn _ '\t'

/-- Witness for C9 at a concrete fully populated 12-field line. -/
theorem C9_witness :
    parseCSV fullLine =
      .returns (.ok [(fullLine.data.splitOn '\t').map (fun cs => (⟨cs⟩ : String))]) ∧
    String.intercalate "\t"
      ((fullLine.data.splitOn '\t').map (fun cs => (⟨cs⟩ : String))) = fullLine :=
  C9_round_trip fullLine (by decide) (by decide) (by decide) (by decide) (by decide)

end Geozip
